import Mathlib

/-!
Verification of the checkpoint download manager
(`src/scripts/download_manager.py`).

The script is an asynchronous polling loop.  We embed it shallowly:

* external collaborators (readiness probe, cache invalidation, artifact
  fetch, local pruning) are modelled as oracle functions from a window id
  to an `Outcome`, where `Outcome.exn` stands for the call raising an
  exception and `Outcome.ok` for a normal return;
* the in-memory `downloaded_windows : set[int]` becomes a `Finset Int`;
* every network-facing call performed during a cycle is recorded in an
  event trace, so that claims of the form "X is never probed/fetched"
  become statements about trace membership;
* the constant `WINDOW_LENGTH` (imported by the script from
  `grail.shared.constants`, not part of the provided sources) is kept as
  an abstract integer parameter `stride`, exactly as the specification
  treats it.
-/

/-- Result of an external call that can raise: `ok a` is a normal return
with value `a`, `exn` is a raised exception. -/
inductive Outcome (α : Type) where
  | ok (a : α)
  | exn
deriving DecidableEq, Repr

/-- Observable external calls made while processing a cycle. -/
inductive Event where
  | probe (w : Int)
  | clearCacheEv (w : Int)
  | fetchEv (w : Int)
  | cleanup (latest : Int)
deriving DecidableEq, Repr

/-- Oracles for the external collaborators, indexed by the window being
processed (`prune` is indexed by the latest window it is called with).
`isReady` models `mgr._is_checkpoint_ready`, `clearCache` models
`clear_client_cache`, `fetch` models `mgr.get_checkpoint` (returning
`none` when the READY marker is missing), `prune` models
`mgr.cleanup_local`. -/
structure Env where
  isReady : Int → Outcome Bool
  clearCache : Int → Outcome Unit
  fetch : Int → Outcome (Option String)
  prune : Int → Outcome Unit

/-- Result of one `download_checkpoint(window)` call: the returned value
(or the exception escaping the call), the downloaded-set afterwards, and
the external calls made. -/
structure DLResult where
  result : Outcome Bool
  downloaded : Finset Int
  events : List Event
deriving DecidableEq

/-- Embeds `download_checkpoint(window)`.  Control flow of the source:
an early return `True` when the window is already downloaded; then the
readiness probe, NOT protected by any `try`, so an exception there
escapes the call (`Outcome.exn`); on `ready`, a `try` block that first
calls `clear_client_cache()` inside an inner `try/except: pass`
(the outcome is discarded), then `get_checkpoint`; a `None` path returns
`False`, a non-`None` path inserts the window and returns `True`, and an
exception from the fetch is caught and turned into `False`. -/
def download_checkpoint (env : Env) (downloaded_windows : Finset Int)
    (window : Int) : DLResult :=
  if window ∈ downloaded_windows then
    { result := .ok true, downloaded := downloaded_windows, events := [] }
  else
    match env.isReady window with
    | .exn =>
        { result := .exn, downloaded := downloaded_windows,
          events := [.probe window] }
    | .ok false =>
        { result := .ok false, downloaded := downloaded_windows,
          events := [.probe window] }
    | .ok true =>
        match env.clearCache window, env.fetch window with
        | _, .exn =>
            { result := .ok false, downloaded := downloaded_windows,
              events := [.probe window, .clearCacheEv window, .fetchEv window] }
        | _, .ok none =>
            { result := .ok false, downloaded := downloaded_windows,
              events := [.probe window, .clearCacheEv window, .fetchEv window] }
        | _, .ok (some _) =>
            { result := .ok true,
              downloaded := insert window downloaded_windows,
              events := [.probe window, .clearCacheEv window, .fetchEv window] }

example :
    download_checkpoint
      { isReady := fun _ => .ok true, clearCache := fun _ => .ok (),
        fetch := fun _ => .ok (some "p"), prune := fun _ => .ok () }
      ∅ 3 =
    { result := .ok true, downloaded := {3},
      events := [.probe 3, .clearCacheEv 3, .fetchEv 3] } := by decide

/-- State after processing a prefix of the sorted recent windows: the
downloaded-set, the accumulated event trace, and whether an exception
escaped a `download_checkpoint` call (aborting the `for` loop). -/
structure CycleState where
  downloaded : Finset Int
  events : List Event
  aborted : Bool
deriving DecidableEq

/-- Embeds the `for window in sorted(recent_windows)` loop of
`check_bucket_for_new_checkpoints`: windows already in
`downloaded_windows` are skipped; otherwise `download_checkpoint` is
awaited, and an exception escaping it (only the readiness probe can
raise out of it) aborts the remainder of the loop. -/
def processWindows (env : Env) : Finset Int → List Int → CycleState
  | d, [] => { downloaded := d, events := [], aborted := false }
  | d, window :: rest =>
      if window ∈ d then processWindows env d rest
      else
        let r := download_checkpoint env d window
        match r.result with
        | .exn =>
            { downloaded := r.downloaded, events := r.events, aborted := true }
        | .ok _ =>
            let s := processWindows env r.downloaded rest
            { downloaded := s.downloaded, events := r.events ++ s.events,
              aborted := s.aborted }

/-- Embeds Python `max(...)` on a non-empty list (the value on `[]` is
arbitrary: the source only evaluates it on a non-empty catalog). -/
def listMax : List Int → Int
  | [] => 0
  | [a] => a
  | a :: b :: rest => max a (listMax (b :: rest))

/-- Embeds `[w for w in remote_windows if w >= cutoff_window]`. -/
def recent_windows (cutoff_window : Int) (remote_windows : List Int) :
    List Int :=
  remote_windows.filter (fun w => decide (cutoff_window ≤ w))

/-- Embeds Python `sorted(...)` (ascending).  Any correct ascending sort
gives the same list, by antisymmetry of the order on `Int`. -/
def sortAsc (l : List Int) : List Int := List.insertionSort (· ≤ ·) l

/-- The sorted recent list a cycle with catalog `l` iterates over. -/
def cycleList (stride keep_limit : Int) (l : List Int) : List Int :=
  sortAsc (recent_windows (listMax l - (keep_limit + 2) * stride) l)

/-- Embeds one invocation of `check_bucket_for_new_checkpoints`, with
`stride` standing for the constant `WINDOW_LENGTH` and `keep_limit` for
the retention budget.  `listing` is the outcome of
`mgr.list_remote_windows()`.  The whole body sits in a `try/except` that
catches every exception, so the function itself always returns: a
listing failure or an exception escaping the download loop ends the
cycle early (in the latter case `cleanup_local` is never reached), and a
`cleanup_local` failure is caught by its own inner `try/except` (both
outcomes produce the same state). -/
def check_bucket_for_new_checkpoints (stride keep_limit : Int) (env : Env)
    (listing : Outcome (List Int)) (downloaded : Finset Int) :
    Finset Int × List Event :=
  match listing with
  | .exn => (downloaded, [])
  | .ok remote_windows =>
      if remote_windows.isEmpty then (downloaded, [])
      else
        let latest_window := listMax remote_windows
        let max_windows_to_download := keep_limit + 2
        let cutoff_window := latest_window - max_windows_to_download * stride
        let recent := recent_windows cutoff_window remote_windows
        let s := processWindows env downloaded (sortAsc recent)
        if s.aborted then (s.downloaded, s.events)
        else
          match env.prune latest_window with
          | .ok _ => (s.downloaded, s.events ++ [.cleanup latest_window])
          | .exn => (s.downloaded, s.events ++ [.cleanup latest_window])

/-- Inputs consumed by one poll cycle: the oracles for the external
collaborators and the outcome of the remote listing. -/
structure CycleInput where
  env : Env
  listing : Outcome (List Int)

/-- Downloaded-set after a sequence of poll cycles (the loop body of
`main`, iterated). -/
def runCycles (stride keep_limit : Int) :
    List CycleInput → Finset Int → Finset Int
  | [], d => d
  | c :: cs, d =>
      runCycles stride keep_limit cs
        (check_bucket_for_new_checkpoints stride keep_limit c.env
          c.listing d).1

/-- How the `try` body of one `while True` iteration in `main` ends.
`check_bucket_for_new_checkpoints` catches every exception internally
and returns normally, so an unexpected in-cycle error still ends the
body with `normal`; `cancelled` is an `asyncio.CancelledError` delivered
at an await point; `raised` is an exception escaping the body itself,
which the cycle call can never produce — only the trailing
`asyncio.sleep` (or the logging machinery) could. -/
inductive CycleOutcome where
  | normal
  | cancelled
  | raised
deriving DecidableEq

/-- What the loop does next after one iteration: sleep for `delay`
seconds and continue, or leave the loop. -/
inductive StepResult where
  | continueAfter (delay : ℚ)
  | stopLoop
deriving DecidableEq

/-- Default of the `DL_MANAGER_CHECK_INTERVAL` environment variable. -/
def bucket_check_interval_default : ℚ := 30

/-- The hard-wired recovery sleep in the `except Exception` arm of the
loop in `main` (`await asyncio.sleep(2.0)`). -/
def error_recovery_delay : ℚ := 2

/-- Embeds the dispatch of the `while True` loop in `main` on how the
`try` body ended: on normal completion the delay before the next cycle
is the `asyncio.sleep(bucket_check_interval)` inside the body;
`asyncio.CancelledError` breaks the loop; any other exception escaping
the body is caught, logged and followed by the fixed two-second sleep.
Since `check_bucket_for_new_checkpoints` never lets an exception escape,
an unexpected in-cycle error always lands in the `normal` arm: the
two-second arm is unreachable for it. -/
def loop_step (bucket_check_interval : ℚ) : CycleOutcome → StepResult
  | .normal => .continueAfter bucket_check_interval
  | .cancelled => .stopLoop
  | .raised => .continueAfter error_recovery_delay

/-- Embeds one full iteration of the `while True` loop in `main` on the
inputs of its cycle: the body awaits `check_bucket_for_new_checkpoints`
(total — its own `except Exception` catches every in-cycle error and
returns normally) and then `asyncio.sleep(bucket_check_interval)`, so an
uncancelled iteration always continues after the NORMAL poll interval,
whatever happened inside the cycle.  Cancellation is modelled as
delivered at the top of the iteration, the cooperative point at which
the loop observes it. -/
def loop_iteration (stride keep_limit : Int) (bucket_check_interval : ℚ)
    (c : CycleInput) (d : Finset Int) (cancelDelivered : Bool) :
    Finset Int × StepResult :=
  if cancelDelivered then (d, .stopLoop)
  else
    ((check_bucket_for_new_checkpoints stride keep_limit c.env
        c.listing d).1,
     .continueAfter bucket_check_interval)

example :
    check_bucket_for_new_checkpoints 100 5
      { isReady := fun _ => .ok true, clearCache := fun _ => .ok (),
        fetch := fun _ => .ok (some "p"), prune := fun _ => .ok () }
      (.ok [1000, 200, 900, 600]) ∅ =
    ({600, 900, 1000},
     [.probe 600, .clearCacheEv 600, .fetchEv 600,
      .probe 900, .clearCacheEv 900, .fetchEv 900,
      .probe 1000, .clearCacheEv 1000, .fetchEv 1000,
      .cleanup 1000]) := by decide

/-- The four fields of the fallback credentials dictionary built by
`_resolve_checkpoint_credentials` (also used, abstractly, for the
dictionary returned by `creds.get_read_dict()`). -/
structure CredBag where
  name : String
  account_id : String
  access_key_id : String
  secret_access_key : String
deriving DecidableEq, Repr

/-- Embeds `os.getenv(key, dflt)` over an environment modelled as a
partial map from variable names to values. -/
def getenvD (e : String → Option String) (key dflt : String) : String :=
  (e key).getD dflt

/-- Embeds Python `str.lower()` (ASCII case folding, which covers every
string the source compares against): lower-cases each character.
Extensionally this is `String.toLower`, but it recurses structurally so
that concrete instances evaluate inside the kernel. -/
def pyLower (s : String) : String := String.mk (s.data.map Char.toLower)

/-- Embeds the `use_trainer` test:
`str(os.getenv("USE_TRAINER_BUCKET", "1")).lower() in ("1", "true", "yes", "on")`. -/
def use_trainer_flag (e : String → Option String) : Bool :=
  ["1", "true", "yes", "on"].contains
    (pyLower (getenvD e "USE_TRAINER_BUCKET" "1"))

/-- Value returned by `_resolve_checkpoint_credentials`: either the
trainer bucket object obtained from the chain, or a credentials
dictionary. -/
inductive ResolvedCreds (Bucket : Type) where
  | trainer (bucket : Bucket)
  | bag (d : CredBag)
deriving DecidableEq

/-- The final environment-variable fallback dictionary, with empty-string
defaults for unset variables. -/
def envCredBag (e : String → Option String) : CredBag :=
  { name := getenvD e "GRAIL_CKPT_BUCKET" "",
    account_id := getenvD e "GRAIL_CKPT_ACCOUNT_ID" "",
    access_key_id := getenvD e "GRAIL_CKPT_ACCESS_KEY" "",
    secret_access_key := getenvD e "GRAIL_CKPT_SECRET_KEY" "" }

/-- Embeds the second half of `_resolve_checkpoint_credentials`: the
`try` around `load_r2_credentials()` / `get_read_dict()` (outcome
`local_creds`), whose `except` builds the dictionary from the
`GRAIL_CKPT_*` environment variables. -/
def _resolve_local_fallback (Bucket : Type) (e : String → Option String)
    (local_creds : Outcome CredBag) : ResolvedCreds Bucket :=
  match local_creds with
  | .ok d => .bag d
  | .exn => .bag (envCredBag e)

/-- Embeds `_resolve_checkpoint_credentials`.  The whole trainer-bucket
block (wallet construction, subtensor, metagraph, chain manager,
`get_bucket(TRAINER_UID)`) sits inside one `try`, so it is modelled as a
single oracle `trainer_lookup`: `ok (some b)` when a bucket is found,
`ok none` when the chain reports no bucket for the trainer UID, `exn`
when anything in the block raises.  Both non-success cases fall through
to the local static-credentials step. -/
def _resolve_checkpoint_credentials (Bucket : Type)
    (e : String → Option String) (trainer_lookup : Outcome (Option Bucket))
    (local_creds : Outcome CredBag) : ResolvedCreds Bucket :=
  if use_trainer_flag e then
    match trainer_lookup with
    | .ok (some b) => .trainer b
    | .ok none => _resolve_local_fallback Bucket e local_creds
    | .exn => _resolve_local_fallback Bucket e local_creds
  else _resolve_local_fallback Bucket e local_creds

example :
    _resolve_checkpoint_credentials Unit
      (fun k => if k = "USE_TRAINER_BUCKET" then some "0" else none)
      (.ok (some ())) .exn =
    .bag { name := "", account_id := "", access_key_id := "",
           secret_access_key := "" } := by decide

/-- The event trace of a `download_checkpoint` call that reached the
fetch step. -/
def fullTrace (w : Int) : List Event :=
  [.probe w, .clearCacheEv w, .fetchEv w]

/-- Oracle where every collaborator succeeds and every window is ready. -/
def envAllReady : Env :=
  { isReady := fun _ => .ok true, clearCache := fun _ => .ok (),
    fetch := fun _ => .ok (some "/tmp/ckpt"), prune := fun _ => .ok () }

/-- Oracle where the readiness probe raises on every window. -/
def envProbeBoom : Env :=
  { isReady := fun _ => .exn, clearCache := fun _ => .ok (),
    fetch := fun _ => .ok (some "/tmp/ckpt"), prune := fun _ => .ok () }

/-- Oracle where the readiness probe raises on window `0` only, and
everything else succeeds. -/
def envProbeBoomAtZero : Env :=
  { isReady := fun w => if w = 0 then .exn else .ok true,
    clearCache := fun _ => .ok (),
    fetch := fun _ => .ok (some "/tmp/ckpt"), prune := fun _ => .ok () }

/-- Oracle where the fetch raises on window `600` only, and everything
else succeeds. -/
def envFetchBoom600 : Env :=
  { isReady := fun _ => .ok true, clearCache := fun _ => .ok (),
    fetch := fun w => if w = 600 then .exn else .ok (some "/tmp/ckpt"),
    prune := fun _ => .ok () }

/-- Oracle where every window is reported not ready. -/
def envNotReady : Env :=
  { isReady := fun _ => .ok false, clearCache := fun _ => .ok (),
    fetch := fun _ => .ok (some "/tmp/ckpt"), prune := fun _ => .ok () }

theorem download_checkpoint_cases (env : Env) (d : Finset Int) (w : Int) :
    (w ∈ d ∧ download_checkpoint env d w =
      { result := .ok true, downloaded := d, events := [] }) ∨
    (w ∉ d ∧ env.isReady w = .exn ∧ download_checkpoint env d w =
      { result := .exn, downloaded := d, events := [.probe w] }) ∨
    (w ∉ d ∧ env.isReady w = .ok false ∧ download_checkpoint env d w =
      { result := .ok false, downloaded := d, events := [.probe w] }) ∨
    (w ∉ d ∧ env.isReady w = .ok true ∧
      (env.fetch w = .exn ∨ env.fetch w = .ok none) ∧
      download_checkpoint env d w =
        { result := .ok false, downloaded := d, events := fullTrace w }) ∨
    (w ∉ d ∧ env.isReady w = .ok true ∧
      (∃ p, env.fetch w = .ok (some p)) ∧
      download_checkpoint env d w =
        { result := .ok true, downloaded := insert w d,
          events := fullTrace w }) := by
  by_cases hw : w ∈ d
  · exact Or.inl ⟨hw, by simp [download_checkpoint, hw]⟩
  · cases hr : env.isReady w with
    | exn =>
        exact Or.inr (Or.inl ⟨hw, rfl, by simp [download_checkpoint, hw, hr]⟩)
    | ok b =>
        cases b with
        | false =>
            exact Or.inr (Or.inr (Or.inl
              ⟨hw, rfl, by simp [download_checkpoint, hw, hr]⟩))
        | true =>
            cases hc : env.clearCache w with
            | exn =>
                cases hf : env.fetch w with
                | exn =>
                    exact Or.inr (Or.inr (Or.inr (Or.inl ⟨hw, rfl, Or.inl rfl,
                      by simp [download_checkpoint, hw, hr, hc, hf,
                        fullTrace]⟩)))
                | ok p =>
                    cases p with
                    | none =>
                        exact Or.inr (Or.inr (Or.inr (Or.inl
                          ⟨hw, rfl, Or.inr rfl,
                            by simp [download_checkpoint, hw, hr, hc, hf,
                              fullTrace]⟩)))
                    | some q =>
                        exact Or.inr (Or.inr (Or.inr (Or.inr
                          ⟨hw, rfl, ⟨q, rfl⟩,
                            by simp [download_checkpoint, hw, hr, hc, hf,
                              fullTrace]⟩)))
            | ok u =>
                cases hf : env.fetch w with
                | exn =>
                    exact Or.inr (Or.inr (Or.inr (Or.inl ⟨hw, rfl, Or.inl rfl,
                      by simp [download_checkpoint, hw, hr, hc, hf,
                        fullTrace]⟩)))
                | ok p =>
                    cases p with
                    | none =>
                        exact Or.inr (Or.inr (Or.inr (Or.inl
                          ⟨hw, rfl, Or.inr rfl,
                            by simp [download_checkpoint, hw, hr, hc, hf,
                              fullTrace]⟩)))
                    | some q =>
                        exact Or.inr (Or.inr (Or.inr (Or.inr
                          ⟨hw, rfl, ⟨q, rfl⟩,
                            by simp [download_checkpoint, hw, hr, hc, hf,
                              fullTrace]⟩)))

theorem download_checkpoint_subset (env : Env) (d : Finset Int) (w : Int) :
    d ⊆ (download_checkpoint env d w).downloaded := by
  rcases download_checkpoint_cases env d w with
    ⟨_, h⟩ | ⟨_, _, h⟩ | ⟨_, _, h⟩ | ⟨_, _, _, h⟩ | ⟨_, _, _, h⟩ <;>
    rw [h] <;> intro x hx <;> simp [hx]

theorem mem_download_checkpoint (env : Env) (d : Finset Int) (w x : Int)
    (hx : x ∈ (download_checkpoint env d w).downloaded) :
    x ∈ d ∨ (x = w ∧ env.isReady w = .ok true ∧
      ∃ p, env.fetch w = .ok (some p)) := by
  rcases download_checkpoint_cases env d w with
    ⟨_, h⟩ | ⟨_, _, h⟩ | ⟨_, _, h⟩ | ⟨_, _, _, h⟩ | ⟨_, hr, hf, h⟩ <;>
      rw [h] at hx
  · exact Or.inl hx
  · exact Or.inl hx
  · exact Or.inl hx
  · exact Or.inl hx
  · simp only [Finset.mem_insert] at hx
    rcases hx with rfl | hx
    · exact Or.inr ⟨rfl, hr, hf⟩
    · exact Or.inl hx

theorem download_checkpoint_events_mem (env : Env) (d : Finset Int)
    (w : Int) (ev : Event)
    (hev : ev ∈ (download_checkpoint env d w).events) :
    ev = .probe w ∨ ev = .clearCacheEv w ∨ ev = .fetchEv w := by
  rcases download_checkpoint_cases env d w with
    ⟨_, h⟩ | ⟨_, _, h⟩ | ⟨_, _, h⟩ | ⟨_, _, _, h⟩ | ⟨_, _, _, h⟩ <;>
    rw [h] at hev <;> simp [fullTrace] at hev <;> tauto

theorem download_checkpoint_result_exn (env : Env) (d : Finset Int)
    (w : Int) (h : (download_checkpoint env d w).result = .exn) :
    w ∉ d ∧ env.isReady w = .exn ∧ download_checkpoint env d w =
      { result := .exn, downloaded := d, events := [.probe w] } := by
  rcases download_checkpoint_cases env d w with
    ⟨_, he⟩ | ⟨hw, hr, he⟩ | ⟨_, _, he⟩ | ⟨_, _, _, he⟩ | ⟨_, _, _, he⟩ <;>
    rw [he] at h <;> simp at h
  exact ⟨hw, hr, he⟩

theorem download_checkpoint_true_iff_mem (env : Env) (d : Finset Int)
    (w : Int) (h : (download_checkpoint env d w).result ≠ .exn) :
    (download_checkpoint env d w).result = .ok true ↔
      w ∈ (download_checkpoint env d w).downloaded := by
  rcases download_checkpoint_cases env d w with
    ⟨hw, he⟩ | ⟨hw, _, he⟩ | ⟨hw, _, he⟩ | ⟨hw, _, _, he⟩ | ⟨hw, _, _, he⟩ <;>
    rw [he] <;> rw [he] at h <;> simp at h ⊢ <;> simp [hw]

theorem download_checkpoint_probe_mem (env : Env) (d : Finset Int)
    (w : Int) (hw : w ∉ d) :
    Event.probe w ∈ (download_checkpoint env d w).events := by
  rcases download_checkpoint_cases env d w with
    ⟨hmem, _⟩ | ⟨_, _, h⟩ | ⟨_, _, h⟩ | ⟨_, _, _, h⟩ | ⟨_, _, _, h⟩
  · exact absurd hmem hw
  all_goals rw [h]; simp [fullTrace]

theorem processWindows_cons_skip (env : Env) (d : Finset Int) (a : Int)
    (rest : List Int) (ha : a ∈ d) :
    processWindows env d (a :: rest) = processWindows env d rest := by
  simp [processWindows, ha]

theorem processWindows_cons_exn (env : Env) (d : Finset Int) (a : Int)
    (rest : List Int) (ha : a ∉ d)
    (hr : (download_checkpoint env d a).result = .exn) :
    processWindows env d (a :: rest) =
      { downloaded := (download_checkpoint env d a).downloaded,
        events := (download_checkpoint env d a).events,
        aborted := true } := by
  simp only [processWindows, if_neg ha, hr]

theorem processWindows_cons_ok (env : Env) (d : Finset Int) (a : Int)
    (rest : List Int) (b : Bool) (ha : a ∉ d)
    (hr : (download_checkpoint env d a).result = .ok b) :
    processWindows env d (a :: rest) =
      { downloaded :=
          (processWindows env (download_checkpoint env d a).downloaded
            rest).downloaded,
        events := (download_checkpoint env d a).events ++
          (processWindows env (download_checkpoint env d a).downloaded
            rest).events,
        aborted :=
          (processWindows env (download_checkpoint env d a).downloaded
            rest).aborted } := by
  simp only [processWindows, if_neg ha, hr]

theorem processWindows_subset (env : Env) (ws : List Int) :
    ∀ d : Finset Int, d ⊆ (processWindows env d ws).downloaded := by
  induction ws with
  | nil => intro d; simp [processWindows]
  | cons a rest ih =>
      intro d
      by_cases ha : a ∈ d
      · rw [processWindows_cons_skip env d a rest ha]; exact ih d
      · cases hr : (download_checkpoint env d a).result with
        | exn =>
            rw [processWindows_cons_exn env d a rest ha hr]
            exact download_checkpoint_subset env d a
        | ok b =>
            rw [processWindows_cons_ok env d a rest b ha hr]
            exact (download_checkpoint_subset env d a).trans
              (ih (download_checkpoint env d a).downloaded)

theorem mem_processWindows (env : Env) (ws : List Int) :
    ∀ (d : Finset Int) (x : Int),
      x ∈ (processWindows env d ws).downloaded →
      x ∈ d ∨ (x ∈ ws ∧ env.isReady x = .ok true ∧
        ∃ p, env.fetch x = .ok (some p)) := by
  induction ws with
  | nil => intro d x hx; exact Or.inl (by simpa [processWindows] using hx)
  | cons a rest ih =>
      intro d x hx
      by_cases ha : a ∈ d
      · rw [processWindows_cons_skip env d a rest ha] at hx
        rcases ih d x hx with h | ⟨h1, h2⟩
        · exact Or.inl h
        · exact Or.inr ⟨List.mem_cons_of_mem a h1, h2⟩
      · cases hr : (download_checkpoint env d a).result with
        | exn =>
            rw [processWindows_cons_exn env d a rest ha hr] at hx
            rcases mem_download_checkpoint env d a x hx with h | ⟨rfl, h2⟩
            · exact Or.inl h
            · exact Or.inr ⟨List.mem_cons_self x rest, h2⟩
        | ok b =>
            rw [processWindows_cons_ok env d a rest b ha hr] at hx
            rcases ih (download_checkpoint env d a).downloaded x hx with
              h | ⟨h1, h2⟩
            · rcases mem_download_checkpoint env d a x h with h | ⟨rfl, h2⟩
              · exact Or.inl h
              · exact Or.inr ⟨List.mem_cons_self x rest, h2⟩
            · exact Or.inr ⟨List.mem_cons_of_mem a h1, h2⟩

theorem processWindows_events_mem (env : Env) (ws : List Int) :
    ∀ (d : Finset Int) (ev : Event),
      ev ∈ (processWindows env d ws).events →
      ∃ w ∈ ws, ev = .probe w ∨ ev = .clearCacheEv w ∨ ev = .fetchEv w := by
  induction ws with
  | nil => intro d ev hev; simp [processWindows] at hev
  | cons a rest ih =>
      intro d ev hev
      by_cases ha : a ∈ d
      · rw [processWindows_cons_skip env d a rest ha] at hev
        rcases ih d ev hev with ⟨w, hw, h⟩
        exact ⟨w, List.mem_cons_of_mem a hw, h⟩
      · cases hr : (download_checkpoint env d a).result with
        | exn =>
            rw [processWindows_cons_exn env d a rest ha hr] at hev
            exact ⟨a, List.mem_cons_self a rest,
              download_checkpoint_events_mem env d a ev hev⟩
        | ok b =>
            rw [processWindows_cons_ok env d a rest b ha hr] at hev
            simp only [List.mem_append] at hev
            rcases hev with hev | hev
            · exact ⟨a, List.mem_cons_self a rest,
                download_checkpoint_events_mem env d a ev hev⟩
            · rcases ih (download_checkpoint env d a).downloaded ev hev with
                ⟨w, hw, h⟩
              exact ⟨w, List.mem_cons_of_mem a hw, h⟩

theorem processWindows_not_aborted (env : Env) (ws : List Int)
    (hno : ∀ w ∈ ws, env.isReady w ≠ .exn) :
    ∀ d : Finset Int, (processWindows env d ws).aborted = false := by
  induction ws with
  | nil => intro d; simp [processWindows]
  | cons a rest ih =>
      intro d
      have hrest : ∀ w ∈ rest, env.isReady w ≠ .exn := fun w hw =>
        hno w (List.mem_cons_of_mem a hw)
      by_cases ha : a ∈ d
      · rw [processWindows_cons_skip env d a rest ha]; exact ih hrest d
      · cases hr : (download_checkpoint env d a).result with
        | exn =>
            exact absurd (download_checkpoint_result_exn env d a hr).2.1
              (hno a (List.mem_cons_self a rest))
        | ok b =>
            rw [processWindows_cons_ok env d a rest b ha hr]
            exact ih hrest (download_checkpoint env d a).downloaded

theorem processWindows_probe_attempted (env : Env) (ws : List Int)
    (hno : ∀ w ∈ ws, env.isReady w ≠ .exn) :
    ∀ (d : Finset Int) (x : Int), x ∈ ws → x ∉ d →
      Event.probe x ∈ (processWindows env d ws).events := by
  induction ws with
  | nil => intro d x hx; simp at hx
  | cons a rest ih =>
      intro d x hx hd
      have hrest : ∀ w ∈ rest, env.isReady w ≠ .exn := fun w hw =>
        hno w (List.mem_cons_of_mem a hw)
      by_cases ha : a ∈ d
      · have hax : x ≠ a := fun h => hd (h ▸ ha)
        rw [processWindows_cons_skip env d a rest ha]
        exact ih hrest d x ((List.mem_cons.mp hx).resolve_left hax) hd
      · cases hr : (download_checkpoint env d a).result with
        | exn =>
            exact absurd (download_checkpoint_result_exn env d a hr).2.1
              (hno a (List.mem_cons_self a rest))
        | ok b =>
            rw [processWindows_cons_ok env d a rest b ha hr]
            simp only [List.mem_append]
            by_cases hax : x = a
            · subst hax
              exact Or.inl (download_checkpoint_probe_mem env d x ha)
            · refine Or.inr (ih hrest _ x
                ((List.mem_cons.mp hx).resolve_left hax) ?_)
              intro hmem
              rcases mem_download_checkpoint env d a x hmem with h | ⟨h, _⟩
              · exact hd h
              · exact hax h

theorem listMax_mem : ∀ l : List Int, l ≠ [] → listMax l ∈ l := by
  intro l
  induction l with
  | nil => intro h; exact absurd rfl h
  | cons a rest ih =>
      intro _
      cases rest with
      | nil => simp [listMax]
      | cons b t =>
          rw [listMax]
          rcases max_choice a (listMax (b :: t)) with h | h
          · rw [h]; exact List.mem_cons_self a (b :: t)
          · rw [h]
            exact List.mem_cons_of_mem a (ih (List.cons_ne_nil b t))

theorem le_listMax : ∀ l : List Int, ∀ w ∈ l, w ≤ listMax l := by
  intro l
  induction l with
  | nil => intro w hw; simp at hw
  | cons a rest ih =>
      intro w hw
      cases rest with
      | nil =>
          rw [List.mem_singleton] at hw
          rw [hw, listMax]
      | cons b t =>
          rw [listMax]
          rcases List.mem_cons.mp hw with rfl | hw
          · exact le_max_left _ _
          · exact le_trans (ih w hw) (le_max_right _ _)

theorem sortAsc_sorted (l : List Int) : List.Sorted (· ≤ ·) (sortAsc l) :=
  List.sorted_insertionSort _ l

theorem sortAsc_perm (l : List Int) : (sortAsc l).Perm l :=
  List.perm_insertionSort _ l

theorem mem_sortAsc (l : List Int) (x : Int) : x ∈ sortAsc l ↔ x ∈ l :=
  (sortAsc_perm l).mem_iff

theorem mem_recent_windows (c : Int) (l : List Int) (x : Int) :
    x ∈ recent_windows c l ↔ x ∈ l ∧ c ≤ x := by
  simp [recent_windows]

theorem check_bucket_ok_eq (stride keep_limit : Int) (env : Env)
    (l : List Int) (d : Finset Int) (hl : l ≠ []) :
    check_bucket_for_new_checkpoints stride keep_limit env (.ok l) d =
      (if (processWindows env d (cycleList stride keep_limit l)).aborted then
        ((processWindows env d (cycleList stride keep_limit l)).downloaded,
         (processWindows env d (cycleList stride keep_limit l)).events)
      else
        ((processWindows env d (cycleList stride keep_limit l)).downloaded,
         (processWindows env d (cycleList stride keep_limit l)).events ++
           [.cleanup (listMax l)])) := by
  have hE : l.isEmpty = false := by
    cases l with
    | nil => exact absurd rfl hl
    | cons a t => rfl
  simp only [check_bucket_for_new_checkpoints, hE, Bool.false_eq_true,
    if_false, cycleList]
  cases hp : env.prune (listMax l) <;> rfl

theorem check_bucket_fst (stride keep_limit : Int) (env : Env)
    (l : List Int) (d : Finset Int) (hl : l ≠ []) :
    (check_bucket_for_new_checkpoints stride keep_limit env (.ok l) d).1 =
      (processWindows env d (cycleList stride keep_limit l)).downloaded := by
  rw [check_bucket_ok_eq stride keep_limit env l d hl]
  split <;> rfl

theorem check_bucket_events_split (stride keep_limit : Int) (env : Env)
    (l : List Int) (d : Finset Int) (hl : l ≠ []) (ev : Event)
    (hev : ev ∈ (check_bucket_for_new_checkpoints stride keep_limit env
      (.ok l) d).2) :
    ev = .cleanup (listMax l) ∨
      ev ∈ (processWindows env d (cycleList stride keep_limit l)).events := by
  rw [check_bucket_ok_eq stride keep_limit env l d hl] at hev
  rcases ite_eq_or_eq
    ((processWindows env d (cycleList stride keep_limit l)).aborted = true)
    _ _ with h | h <;> rw [h] at hev
  · exact Or.inr hev
  · simp only [List.mem_append, List.mem_singleton] at hev
    tauto

theorem check_bucket_subset (stride keep_limit : Int) (env : Env)
    (listing : Outcome (List Int)) (d : Finset Int) :
    d ⊆ (check_bucket_for_new_checkpoints stride keep_limit env
      listing d).1 := by
  cases listing with
  | exn => exact fun x hx => hx
  | ok l =>
      by_cases hl : l = []
      · subst hl; exact fun x hx => hx
      · rw [check_bucket_fst stride keep_limit env l d hl]
        exact processWindows_subset env (cycleList stride keep_limit l) d

theorem mem_check_bucket (stride keep_limit : Int) (env : Env)
    (listing : Outcome (List Int)) (d : Finset Int) (x : Int)
    (hx : x ∈ (check_bucket_for_new_checkpoints stride keep_limit env
      listing d).1) :
    x ∈ d ∨ ((∃ l, listing = .ok l ∧ x ∈ l) ∧ env.isReady x = .ok true ∧
      ∃ p, env.fetch x = .ok (some p)) := by
  cases listing with
  | exn => exact Or.inl hx
  | ok l =>
      by_cases hl : l = []
      · subst hl; exact Or.inl hx
      · rw [check_bucket_fst stride keep_limit env l d hl] at hx
        rcases mem_processWindows env (cycleList stride keep_limit l) d x hx
          with h | ⟨h1, h2⟩
        · exact Or.inl h
        · rw [cycleList, mem_sortAsc, mem_recent_windows] at h1
          exact Or.inr ⟨⟨l, rfl, h1.1⟩, h2⟩

theorem runCycles_subset (stride keep_limit : Int) (cs : List CycleInput) :
    ∀ d : Finset Int, d ⊆ runCycles stride keep_limit cs d := by
  induction cs with
  | nil => intro d; exact fun x hx => hx
  | cons c rest ih =>
      intro d
      exact (check_bucket_subset stride keep_limit c.env c.listing d).trans
        (ih _)

theorem mem_runCycles (stride keep_limit : Int) (cs : List CycleInput) :
    ∀ (d : Finset Int) (x : Int), x ∈ runCycles stride keep_limit cs d →
      x ∈ d ∨ ∃ c ∈ cs, (∃ l, c.listing = .ok l ∧ x ∈ l) ∧
        c.env.isReady x = .ok true ∧
        ∃ p, c.env.fetch x = .ok (some p) := by
  induction cs with
  | nil => intro d x hx; exact Or.inl hx
  | cons c rest ih =>
      intro d x hx
      rcases ih _ x hx with h | ⟨c2, hc2, h2⟩
      · rcases mem_check_bucket stride keep_limit c.env c.listing d x h with
          h | ⟨h1, h2, h3⟩
        · exact Or.inl h
        · exact Or.inr ⟨c, List.mem_cons_self c rest, h1, h2, h3⟩
      · exact Or.inr ⟨c2, List.mem_cons_of_mem c hc2, h2⟩

/-- C3: a window `w` is added to the downloaded-set by
`download_checkpoint` exactly when the fetch was performed and returned a
non-`None` local path; when the fetch returns `None` or raises, the
downloaded-set is left exactly unchanged. -/
theorem downloaded_iff_fetch_returned_path (env : Env) (d : Finset Int)
    (w : Int) :
    ((w ∉ d ∧ w ∈ (download_checkpoint env d w).downloaded) ↔
      (Event.fetchEv w ∈ (download_checkpoint env d w).events ∧
        ∃ p, env.fetch w = .ok (some p))) ∧
    ((env.fetch w = .ok none ∨ env.fetch w = .exn) →
      (download_checkpoint env d w).downloaded = d) := by
  rcases download_checkpoint_cases env d w with
    ⟨hw, he⟩ | ⟨hw, hr, he⟩ | ⟨hw, hr, he⟩ | ⟨hw, hr, hf, he⟩ |
    ⟨hw, hr, hf, he⟩ <;> rw [he]
  · constructor
    · constructor
      · rintro ⟨h1, _⟩; exact absurd hw h1
      · rintro ⟨h1, _⟩; simp at h1
    · intro _; rfl
  · constructor
    · constructor
      · rintro ⟨h1, h2⟩; exact absurd h2 h1
      · rintro ⟨h1, _⟩; simp at h1
    · intro _; rfl
  · constructor
    · constructor
      · rintro ⟨h1, h2⟩; exact absurd h2 h1
      · rintro ⟨h1, _⟩; simp at h1
    · intro _; rfl
  · constructor
    · constructor
      · rintro ⟨h1, h2⟩; exact absurd h2 h1
      · rintro ⟨_, p, hp⟩
        rcases hf with hf | hf <;> rw [hf] at hp <;> simp at hp
    · intro _; rfl
  · constructor
    · constructor
      · rintro ⟨h1, _⟩
        exact ⟨by simp [fullTrace], hf⟩
      · rintro ⟨_, _⟩
        exact ⟨hw, by simp⟩
    · rintro (h | h) <;> rcases hf with ⟨p, hp⟩ <;> rw [h] at hp <;>
        simp at hp

/-- C7: once `download_checkpoint` has returned `True` for `w`, a second
call for `w` returns `True` again and makes no external call at all (no
readiness probe, no cache invalidation, no fetch). -/
theorem downloadOne_idempotent (env : Env) (d : Finset Int) (w : Int)
    (h : (download_checkpoint env d w).result = .ok true) :
    download_checkpoint env (download_checkpoint env d w).downloaded w =
      { result := .ok true,
        downloaded := (download_checkpoint env d w).downloaded,
        events := [] } := by
  have hmem : w ∈ (download_checkpoint env d w).downloaded :=
    (download_checkpoint_true_iff_mem env d w (by rw [h]; intro hc; cases hc)).mp h
  generalize hD : (download_checkpoint env d w).downloaded = D at hmem ⊢
  simp [download_checkpoint, hmem]

theorem downloadOne_idempotent_witness :
    (download_checkpoint envAllReady ∅ 0).result = .ok true ∧
    download_checkpoint envAllReady
        (download_checkpoint envAllReady ∅ 0).downloaded 0 =
      { result := .ok true,
        downloaded := (download_checkpoint envAllReady ∅ 0).downloaded,
        events := [] } :=
  ⟨by decide, downloadOne_idempotent envAllReady ∅ 0 (by decide)⟩

/-- C8: a window not yet downloaded whose readiness probe reports
not-ready makes `download_checkpoint` return `False` with no fetch call
(the trace is exactly the probe), and the window stays absent from the
downloaded-set. -/
theorem ready_gate (env : Env) (d : Finset Int) (w : Int)
    (hw : w ∉ d) (hr : env.isReady w = .ok false) :
    download_checkpoint env d w =
      { result := .ok false, downloaded := d, events := [.probe w] } ∧
    w ∉ (download_checkpoint env d w).downloaded := by
  have he : download_checkpoint env d w =
      { result := .ok false, downloaded := d, events := [.probe w] } := by
    simp [download_checkpoint, hw, hr]
  exact ⟨he, by rw [he]; exact hw⟩

theorem ready_gate_witness :
    (0 : Int) ∉ (∅ : Finset Int) ∧
    envNotReady.isReady 0 = .ok false ∧
    (download_checkpoint envNotReady ∅ 0 =
      { result := .ok false, downloaded := ∅, events := [.probe 0] } ∧
     (0 : Int) ∉ (download_checkpoint envNotReady ∅ 0).downloaded) :=
  ⟨by decide, by decide, ready_gate envNotReady ∅ 0 (by decide) (by decide)⟩

/-- C10: whenever `download_checkpoint` completes without raising, its
boolean result is `True` exactly when the window is in the downloaded-set
after the call. -/
theorem downloadOne_result_matches_membership (env : Env) (d : Finset Int)
    (w : Int) (h : (download_checkpoint env d w).result ≠ .exn) :
    (download_checkpoint env d w).result = .ok true ↔
      w ∈ (download_checkpoint env d w).downloaded :=
  download_checkpoint_true_iff_mem env d w h

theorem downloadOne_result_matches_membership_witness :
    (download_checkpoint envNotReady ∅ 5).result ≠ .exn ∧
    ((download_checkpoint envNotReady ∅ 5).result = .ok true ↔
      (5 : Int) ∈ (download_checkpoint envNotReady ∅ 5).downloaded) :=
  ⟨by decide, downloadOne_result_matches_membership envNotReady ∅ 5
    (by decide)⟩

/-- C4: for a non-empty catalog, the eligible (recent) windows are
exactly the catalog members at or above
`max(catalog) - (keep_limit + 2) * stride`; they are iterated in
ascending order (a sorted permutation of the filter); and no window
below the cutoff is ever probed or fetched in the cycle, whatever its
readiness. -/
theorem recency_filter (stride keep_limit : Int) (env : Env)
    (l : List Int) (d : Finset Int) (hl : l ≠ []) :
    (listMax l ∈ l ∧ ∀ w ∈ l, w ≤ listMax l) ∧
    (∀ w : Int,
      w ∈ recent_windows (listMax l - (keep_limit + 2) * stride) l ↔
        (w ∈ l ∧ listMax l - (keep_limit + 2) * stride ≤ w)) ∧
    List.Sorted (· ≤ ·) (cycleList stride keep_limit l) ∧
    (cycleList stride keep_limit l).Perm
      (recent_windows (listMax l - (keep_limit + 2) * stride) l) ∧
    (∀ w : Int, w < listMax l - (keep_limit + 2) * stride →
      Event.probe w ∉ (check_bucket_for_new_checkpoints stride keep_limit
        env (.ok l) d).2 ∧
      Event.fetchEv w ∉ (check_bucket_for_new_checkpoints stride keep_limit
        env (.ok l) d).2) := by
  refine ⟨⟨listMax_mem l hl, le_listMax l⟩,
    fun w => mem_recent_windows _ l w,
    sortAsc_sorted _, sortAsc_perm _, fun w hw => ?_⟩
  have key : ∀ ev, ev ∈ (check_bucket_for_new_checkpoints stride keep_limit
      env (.ok l) d).2 →
      (ev = Event.probe w ∨ ev = Event.fetchEv w) → False := by
    intro ev hev hform
    rcases check_bucket_events_split stride keep_limit env l d hl ev hev
      with hcl | hpw
    · rcases hform with rfl | rfl <;> simp at hcl
    · rcases processWindows_events_mem env (cycleList stride keep_limit l)
        d ev hpw with ⟨w2, hw2, hform2⟩
      have hwmem : w ∈ cycleList stride keep_limit l := by
        rcases hform with rfl | rfl <;> rcases hform2 with h | h | h <;>
          first
            | (injection h with h2; exact h2 ▸ hw2)
            | (exact absurd h (by simp))
      rw [cycleList, mem_sortAsc, mem_recent_windows] at hwmem
      exact absurd hwmem.2 (not_le.mpr hw)
  exact ⟨fun hev => key _ hev (Or.inl rfl), fun hev => key _ hev (Or.inr rfl)⟩

theorem recency_filter_witness :
    ([1000, 200, 900, 600] : List Int) ≠ [] ∧
    (200 : Int) < listMax [1000, 200, 900, 600] - (5 + 2) * 100 ∧
    Event.probe 200 ∉ (check_bucket_for_new_checkpoints 100 5 envAllReady
      (.ok [1000, 200, 900, 600]) ∅).2 ∧
    Event.fetchEv 200 ∉ (check_bucket_for_new_checkpoints 100 5 envAllReady
      (.ok [1000, 200, 900, 600]) ∅).2 :=
  ⟨by decide, by decide,
   ((recency_filter 100 5 envAllReady [1000, 200, 900, 600] ∅
      (by decide)).2.2.2.2 200 (by decide)).1,
   ((recency_filter 100 5 envAllReady [1000, 200, 900, 600] ∅
      (by decide)).2.2.2.2 200 (by decide)).2⟩

/-- C5: the downloaded-set never loses an element under any operation
(`download_checkpoint`, one cycle, any sequence of cycles), and every
window in the set after a whole run starting from the empty set was
listed in some cycle's remote catalog and had a readiness probe return
ready. -/
theorem downloadedSet_monotone_and_provenance (stride keep_limit : Int)
    (cs : List CycleInput) :
    (∀ (env : Env) (d : Finset Int) (w : Int),
      d ⊆ (download_checkpoint env d w).downloaded) ∧
    (∀ (env : Env) (listing : Outcome (List Int)) (d : Finset Int),
      d ⊆ (check_bucket_for_new_checkpoints stride keep_limit env
        listing d).1) ∧
    (∀ d : Finset Int, d ⊆ runCycles stride keep_limit cs d) ∧
    (∀ x ∈ runCycles stride keep_limit cs ∅,
      ∃ c ∈ cs, (∃ l, c.listing = .ok l ∧ x ∈ l) ∧
        c.env.isReady x = .ok true) := by
  refine ⟨fun env d w => download_checkpoint_subset env d w,
    fun env listing d => check_bucket_subset stride keep_limit env listing d,
    fun d => runCycles_subset stride keep_limit cs d,
    fun x hx => ?_⟩
  rcases mem_runCycles stride keep_limit cs ∅ x hx with h | ⟨c, hc, h1, h2, _⟩
  · simp at h
  · exact ⟨c, hc, h1, h2⟩

/-- C9: whenever the registry path yields no bucket (flag off, lookup
raising, or bucket absent) and the local static-credential load fails,
the resolver still returns normally, with the bag built solely from the
named environment variables; a variable that is unset contributes the
empty string.  Totality over every other outcome combination is the
totality of `_resolve_checkpoint_credentials` itself. -/
theorem credential_chain_never_raises (Bucket : Type)
    (e : String → Option String) (trainer_lookup : Outcome (Option Bucket))
    (local_creds : Outcome CredBag)
    (hreg : use_trainer_flag e = false ∨ trainer_lookup = .exn ∨
      trainer_lookup = .ok none)
    (hloc : local_creds = .exn) :
    _resolve_checkpoint_credentials Bucket e trainer_lookup local_creds =
      .bag (envCredBag e) ∧
    (e "GRAIL_CKPT_BUCKET" = none → (envCredBag e).name = "") ∧
    (e "GRAIL_CKPT_ACCOUNT_ID" = none → (envCredBag e).account_id = "") ∧
    (e "GRAIL_CKPT_ACCESS_KEY" = none → (envCredBag e).access_key_id = "") ∧
    (e "GRAIL_CKPT_SECRET_KEY" = none →
      (envCredBag e).secret_access_key = "") := by
  subst hloc
  refine ⟨?_, fun h => by simp [envCredBag, getenvD, h],
    fun h => by simp [envCredBag, getenvD, h],
    fun h => by simp [envCredBag, getenvD, h],
    fun h => by simp [envCredBag, getenvD, h]⟩
  rcases hreg with h | h | h
  · simp [_resolve_checkpoint_credentials, h, _resolve_local_fallback]
  · subst h
    simp [_resolve_checkpoint_credentials, _resolve_local_fallback]
  · subst h
    simp [_resolve_checkpoint_credentials, _resolve_local_fallback]

theorem credential_chain_never_raises_witness :
    ((Outcome.ok (none : Option Unit)) = .exn ∨
      (Outcome.ok (none : Option Unit)) = .ok none) ∧
    _resolve_checkpoint_credentials Unit (fun _ => none) (.ok none) .exn =
      .bag (envCredBag (fun _ => none)) ∧
    envCredBag (fun _ => none) =
      { name := "", account_id := "", access_key_id := "",
        secret_access_key := "" } :=
  ⟨Or.inr rfl,
   (credential_chain_never_raises Unit (fun _ => none) (.ok none) .exn
     (Or.inr (Or.inr rfl)) rfl).1,
   by decide⟩

/-- C1 counterexample: catalog `[0, 1]`, nothing downloaded, both
windows recent, and the readiness probe raises on window `0`.  Window
`0` is processed first (the probe event is in the trace) and its
probe error escapes `download_checkpoint`, so window `1` is never
attempted in that cycle: neither probed nor fetched.  This refutes the
claim for an error raised at the readiness-probe step. -/
theorem window_isolation_counterexample :
    Event.probe 0 ∈ (check_bucket_for_new_checkpoints 100 5
      envProbeBoomAtZero (.ok [0, 1]) ∅).2 ∧
    Event.probe 1 ∉ (check_bucket_for_new_checkpoints 100 5
      envProbeBoomAtZero (.ok [0, 1]) ∅).2 ∧
    Event.fetchEv 1 ∉ (check_bucket_for_new_checkpoints 100 5
      envProbeBoomAtZero (.ok [0, 1]) ∅).2 := by decide

/-- C1 amended: failure isolation holds for the cache-invalidation and
fetch steps but not for the readiness probe.  Precisely: in any cycle
with a non-empty catalog in which no readiness probe of a recent window
raises, every recent window not yet downloaded is attempted (its probe
appears in the trace) regardless of how the cache invalidation or the
fetch of any other window behaves — including raising — and the
download loop is never aborted. -/
theorem window_isolation_amended (stride keep_limit : Int) (env : Env)
    (l : List Int) (d : Finset Int) (hl : l ≠ [])
    (hno : ∀ w ∈ cycleList stride keep_limit l, env.isReady w ≠ .exn) :
    (∀ w ∈ cycleList stride keep_limit l, w ∉ d →
      Event.probe w ∈ (check_bucket_for_new_checkpoints stride keep_limit
        env (.ok l) d).2) ∧
    (processWindows env d (cycleList stride keep_limit l)).aborted =
      false := by
  have hab : (processWindows env d (cycleList stride keep_limit l)).aborted
      = false := processWindows_not_aborted env _ hno d
  refine ⟨fun w hw hd => ?_, hab⟩
  have hpw : Event.probe w ∈
      (processWindows env d (cycleList stride keep_limit l)).events :=
    processWindows_probe_attempted env _ hno d w hw hd
  rw [check_bucket_ok_eq stride keep_limit env l d hl, hab]
  simp only [Bool.false_eq_true, if_false, List.mem_append]
  exact Or.inl hpw

theorem window_isolation_amended_witness :
    ([1000, 200, 900, 600] : List Int) ≠ [] ∧
    (600 : Int) ∈ cycleList 100 5 [1000, 200, 900, 600] ∧
    envFetchBoom600.fetch 600 = .exn ∧
    (900 : Int) ∈ cycleList 100 5 [1000, 200, 900, 600] ∧
    Event.probe 900 ∈ (check_bucket_for_new_checkpoints 100 5
      envFetchBoom600 (.ok [1000, 200, 900, 600]) ∅).2 :=
  ⟨by decide, by decide, by decide, by decide,
   (window_isolation_amended 100 5 envFetchBoom600 [1000, 200, 900, 600] ∅
     (by decide) (by decide)).1 900 (by decide) (by decide)⟩

/-- C2 counterexample: an unexpected error inside a cycle (here the
readiness probe raising on window `0`, which the probe event in the
trace shows was reached) is caught by the `except Exception` at the end
of `check_bucket_for_new_checkpoints` itself, so the cycle returns
normally and the loop sleeps the NORMAL poll interval (default 30 s),
not the 2.0-second error-recovery delay: the delay before the next
cycle after an in-cycle error is neither the recovery delay nor
strictly shorter than the poll interval. -/
theorem error_delay_counterexample :
    envProbeBoom.isReady 0 = .exn ∧
    Event.probe 0 ∈ (check_bucket_for_new_checkpoints 100 5 envProbeBoom
      (.ok [0]) ∅).2 ∧
    (loop_iteration 100 5 bucket_check_interval_default
      { env := envProbeBoom, listing := .ok [0] } ∅ false).2 =
      .continueAfter bucket_check_interval_default ∧
    ¬ (loop_iteration 100 5 bucket_check_interval_default
      { env := envProbeBoom, listing := .ok [0] } ∅ false).2 =
      .continueAfter error_recovery_delay := by decide

/-- C2 amended: an unexpected error inside a cycle is caught — by the
cycle-boundary `except Exception` inside `check_bucket_for_new_checkpoints`
itself — and logged, the cycle returns normally, and the delay before
the next cycle is the NORMAL poll interval: the loop's separate fixed
2.0-second error-recovery branch is never triggered by an in-cycle
error (it would respond only to an exception escaping the body itself,
which the cycle call cannot produce); the loop never terminates because
of such an error, stopping only on cancellation. -/
theorem error_recovery_step (stride keep_limit : Int)
    (bucket_check_interval : ℚ) (c : CycleInput) (d : Finset Int)
    (hne : bucket_check_interval ≠ error_recovery_delay) :
    (loop_iteration stride keep_limit bucket_check_interval c d false).2 =
      .continueAfter bucket_check_interval ∧
    ¬ (loop_iteration stride keep_limit bucket_check_interval c d
      false).2 = .continueAfter error_recovery_delay ∧
    (loop_iteration stride keep_limit bucket_check_interval c d false).2 ≠
      .stopLoop ∧
    (∀ oc : CycleOutcome, oc ≠ .cancelled →
      loop_step bucket_check_interval oc ≠ .stopLoop) := by
  refine ⟨rfl, ?_, ?_, fun oc hoc => ?_⟩
  · intro h
    rw [loop_iteration] at h
    simp only [Bool.false_eq_true, if_false] at h
    exact hne (StepResult.continueAfter.inj h)
  · intro h
    rw [loop_iteration] at h
    simp only [Bool.false_eq_true, if_false] at h
    cases h
  · cases oc with
    | normal => intro h; cases h
    | cancelled => exact absurd rfl hoc
    | raised => intro h; cases h

theorem error_recovery_step_witness :
    bucket_check_interval_default ≠ error_recovery_delay ∧
    (loop_iteration 100 5 bucket_check_interval_default
      { env := envProbeBoom, listing := .ok [0] } ∅ false).2 =
      .continueAfter bucket_check_interval_default ∧
    (loop_iteration 100 5 bucket_check_interval_default
      { env := envProbeBoom, listing := .ok [0] } ∅ false).2 ≠
      .stopLoop :=
  ⟨by decide,
   (error_recovery_step 100 5 bucket_check_interval_default
     { env := envProbeBoom, listing := .ok [0] } ∅ (by decide)).1,
   (error_recovery_step 100 5 bucket_check_interval_default
     { env := envProbeBoom, listing := .ok [0] } ∅ (by decide)).2.2.1⟩

theorem download_checkpoint_prune_irrel (env : Env)
    (p2 : Int → Outcome Unit) (d : Finset Int) (w : Int) :
    download_checkpoint { env with prune := p2 } d w =
      download_checkpoint env d w := rfl

theorem processWindows_prune_irrel (env : Env)
    (p2 : Int → Outcome Unit) (ws : List Int) :
    ∀ d : Finset Int,
      processWindows { env with prune := p2 } d ws =
        processWindows env d ws := by
  induction ws with
  | nil => intro d; rfl
  | cons a rest ih =>
      intro d
      simp only [processWindows, download_checkpoint_prune_irrel, ih]

theorem check_bucket_prune_irrel (stride keep_limit : Int) (env : Env)
    (p2 : Int → Outcome Unit) (listing : Outcome (List Int))
    (d : Finset Int) :
    check_bucket_for_new_checkpoints stride keep_limit
        { env with prune := p2 } listing d =
      check_bucket_for_new_checkpoints stride keep_limit env listing d := by
  cases listing with
  | exn => rfl
  | ok l =>
      by_cases hl : l = []
      · subst hl; rfl
      · rw [check_bucket_ok_eq stride keep_limit { env with prune := p2 }
          l d hl, check_bucket_ok_eq stride keep_limit env l d hl,
          processWindows_prune_irrel env p2 (cycleList stride keep_limit l) d]

/-- C6 counterexample: catalog `[0]` is non-empty and the only download
of the cycle fails — its readiness probe raises — yet the retention
manager is NOT invoked in that cycle: the probe exception aborts the
download loop before the `cleanup_local` call is reached.  This refutes
the claim that the retention manager is invoked in every non-empty-catalog
cycle even when downloads fail. -/
theorem cleanup_skipped_counterexample :
    ¬ ([0] : List Int) = [] ∧
    Event.probe 0 ∈ (check_bucket_for_new_checkpoints 100 5 envProbeBoom
      (.ok [0]) ∅).2 ∧
    Event.cleanup (listMax [0]) ∉ (check_bucket_for_new_checkpoints 100 5
      envProbeBoom (.ok [0]) ∅).2 ∧
    (check_bucket_for_new_checkpoints 100 5 envProbeBoom (.ok [0]) ∅).2 =
      [Event.probe 0] := by decide

/-- C6 amended: in every cycle with a non-empty catalog in which no
readiness probe of a recent window raises (in particular whenever
downloads merely fail by returning `False`, including caught fetch
errors and not-ready windows), the retention manager is invoked with
exactly the latest REMOTE window `max(catalog)`, and with no other
argument; when the catalog is empty it is not invoked at all; and a
failure of the retention manager itself never changes the outcome of the
cycle (so it aborts neither the cycle nor the loop).  A readiness-probe
exception, however, skips the retention call for that cycle. -/
theorem cleanup_keyed_on_latest (stride keep_limit : Int) (env : Env)
    (l : List Int) (d : Finset Int) (hl : l ≠ [])
    (hno : ∀ w ∈ cycleList stride keep_limit l, env.isReady w ≠ .exn) :
    Event.cleanup (listMax l) ∈ (check_bucket_for_new_checkpoints stride
      keep_limit env (.ok l) d).2 ∧
    (∀ x : Int, Event.cleanup x ∈ (check_bucket_for_new_checkpoints stride
      keep_limit env (.ok l) d).2 → x = listMax l) ∧
    (listMax l ∈ l ∧ ∀ w ∈ l, w ≤ listMax l) ∧
    (∀ p2 : Int → Outcome Unit,
      check_bucket_for_new_checkpoints stride keep_limit
          { env with prune := p2 } (.ok l) d =
        check_bucket_for_new_checkpoints stride keep_limit env (.ok l) d) ∧
    (∀ (env2 : Env) (d2 : Finset Int),
      check_bucket_for_new_checkpoints stride keep_limit env2
        (.ok ([] : List Int)) d2 = (d2, [])) := by
  have hab : (processWindows env d (cycleList stride keep_limit l)).aborted
      = false := processWindows_not_aborted env _ hno d
  have hev : (check_bucket_for_new_checkpoints stride keep_limit env
      (.ok l) d).2 =
      (processWindows env d (cycleList stride keep_limit l)).events ++
        [.cleanup (listMax l)] := by
    rw [check_bucket_ok_eq stride keep_limit env l d hl, hab]
    simp
  refine ⟨?_, fun x hx => ?_, ⟨listMax_mem l hl, le_listMax l⟩,
    fun p2 => check_bucket_prune_irrel stride keep_limit env p2 (.ok l) d,
    fun env2 d2 => rfl⟩
  · rw [hev]; simp
  · rw [hev] at hx
    rcases List.mem_append.mp hx with h | h
    · rcases processWindows_events_mem env _ d (Event.cleanup x) h
        with ⟨w, _, habs | habs | habs⟩ <;> cases habs
    · rcases List.mem_singleton.mp h with h2
      injection h2

theorem cleanup_keyed_on_latest_witness :
    ([1000, 200, 900, 600] : List Int) ≠ [] ∧
    Event.cleanup (listMax [1000, 200, 900, 600]) ∈
      (check_bucket_for_new_checkpoints 100 5 envFetchBoom600
        (.ok [1000, 200, 900, 600]) ∅).2 ∧
    listMax [1000, 200, 900, 600] = 1000 :=
  ⟨by decide,
   (cleanup_keyed_on_latest 100 5 envFetchBoom600 [1000, 200, 900, 600] ∅
     (by decide) (by decide)).1,
   by decide⟩
